import Mathlib

/-!
# Verification of the rot-tomato chess engine against its specification

A shallow embedding, in Lean 4, of the parts of the engine that the frozen
claims are about:

* the 16-bit packed move representation and UCI move parsing
  (`src/base/src/moves.rs`),
* the `Minimax` alpha-beta searcher with quiescence and a bounded-depth
  transposition table (`src/src/engine/search.rs`),
* the iterative-deepening driver with helper threads
  (`src/engine/src/thread.rs`),
* the tuner's feature extraction and chunked training step
  (`src/tuner/src/main.rs`).

Machine integers are modelled as `Nat`/`Int` with explicit reductions
modulo `2^16` where the Rust code manipulates `u16` words.  Rust functions
that can panic are modelled as `Option`-valued functions, `none` standing
for the panic.  Code whose sources are not part of the repository snapshot
(the `Eval` score type, the `Game`/`MoveGenerator` interface, the result
unification of the driver) is modelled from the specification and marked
as such in its doc comment.
-/

namespace RotTomato

/-! ## The packed move representation (`src/base/src/moves.rs`)

A `Move` is a `u16`, modelled as a `Nat` reduced modulo `2 ^ 16` wherever
the Rust code builds the word.  `Move::new` panics when asked to tag a
move both castle and en passant, so the constructor is `Option`-valued,
`none` standing for the panic. -/

namespace Move

/-- `Move::FLAG_MASK`: the mask used to extract the flag bits. -/
def FLAG_MASK : Nat := 0xC000

/-- `Move::PROMOTE_FLAG`: the flag bits of a promotion. -/
def PROMOTE_FLAG : Nat := 0x4000

/-- `Move::CASTLE_FLAG`: the flag bits of a castle. -/
def CASTLE_FLAG : Nat := 0x8000

/-- `Move::EN_PASSANT_FLAG`: the flag bits of an en passant capture. -/
def EN_PASSANT_FLAG : Nat := 0xC000

/-- `Move::new`: pack a move into a `u16` word.  The from-square seeds the
word, the to-square is or-ed in shifted by 6, a promotion piece is or-ed
in shifted by 12 together with the promotion flag, and the castle /
en-passant flags occupy the top two bits.  Requesting both castle and en
passant panics in Rust, here `none`. -/
def new (fromSquare toSquare : Nat) (promoteType : Option Nat)
    (castle enPassant : Bool) : Option Nat :=
  let bits := fromSquare % 2 ^ 16
  let bits := bits ||| (toSquare % 2 ^ 16) <<< 6 % 2 ^ 16
  let bits :=
    match promoteType with
    | some p => bits ||| ((p % 2 ^ 16) <<< 12 % 2 ^ 16 ||| PROMOTE_FLAG)
    | none => bits
  match castle, enPassant with
  | false, false => some bits
  | false, true => some (bits ||| EN_PASSANT_FLAG)
  | true, false => some (bits ||| CASTLE_FLAG)
  | true, true => none

/-- `Move::normal`: a move with no promotion and no special flags. -/
def normal (fromSquare toSquare : Nat) : Option Nat :=
  new fromSquare toSquare none false false

/-- `Move::promoting`: a move carrying a promotion piece. -/
def promoting (fromSquare toSquare promoteType : Nat) : Option Nat :=
  new fromSquare toSquare (some promoteType) false false

/-- `Move::castling`: a move tagged as a castle. -/
def castling (fromSquare toSquare : Nat) : Option Nat :=
  new fromSquare toSquare none true false

/-- `Move::en_passant`: a move tagged as an en passant capture. -/
def enPassantMove (fromSquare toSquare : Nat) : Option Nat :=
  new fromSquare toSquare none false true

/-- `Move::to_square`: the accessor reads bits 6..12 of the word. -/
def toSquare (m : Nat) : Nat := m >>> 6 &&& 63

/-- `Move::from_square`: the accessor reads the low 6 bits of the word. -/
def fromSquare (m : Nat) : Nat := m &&& 63

/-- `Move::is_promotion`. -/
def isPromotion (m : Nat) : Bool := m &&& FLAG_MASK == PROMOTE_FLAG

/-- `Move::is_castle`. -/
def isCastle (m : Nat) : Bool := m &&& FLAG_MASK == CASTLE_FLAG

/-- `Move::is_en_passant`. -/
def isEnPassant (m : Nat) : Bool := m &&& FLAG_MASK == EN_PASSANT_FLAG

/-- `Move::promote_type`: bits 12..14, present only under the promotion
flag. -/
def promoteType (m : Nat) : Option Nat :=
  if isPromotion m then some (m >>> 12 &&& 3) else none

end Move

/-! ## The tuner's chunked training step (`src/tuner/src/main.rs`)

`train_step` splits the dataset over `nthreads` workers: worker `tid`
receives `inputs[chunk_size * tid ..][.. chunk_size]` with
`chunk_size = inputs.len() / nthreads`.  The defs below embed exactly the
sample-selection logic (the gradient arithmetic on `f32` does not affect
which samples are visited). -/

/-- The slice `inputs[chunk_size * thread_id ..][.. chunk_size]` handed to
one worker of `train_step`. -/
def chunkOf (inputs : List α) (nthreads tid : Nat) : List α :=
  (inputs.drop (inputs.length / nthreads * tid)).take (inputs.length / nthreads)

/-- All samples visited by one `train_step`: the concatenation of the
chunks of threads `0, …, nthreads - 1`, in thread order. -/
def processedSamples (inputs : List α) (nthreads : Nat) : List α :=
  ((List.range nthreads).map (chunkOf inputs nthreads)).flatten

/-- Chunks of size `c` starting at `0, c, 2c, …` tile an initial segment
of the list. -/
theorem join_chunks_eq_take (c : Nat) (l : List α) :
    ∀ n : Nat, ((List.range n).map (fun i => (l.drop (c * i)).take c)).flatten
      = l.take (c * n) := by
  intro n
  induction n with
  | zero => simp
  | succ n ih =>
      rw [List.range_succ, List.map_append, List.flatten_append, ih]
      simp [Nat.mul_succ, List.take_add]

/-! ## The driver's nodes-per-second figure (`src/engine/src/thread.rs`)

The info line publishes
`EngineInfo::NodeSpeed(nodes * 1000 / (elapsed.as_millis() as u64))`.
Integer division by zero panics in Rust; the panic is modelled by
`none`. -/

/-- The `NodeSpeed` field of the driver's info line; `none` models the
division-by-zero panic when the elapsed time truncates to 0 ms. -/
def nodeSpeed (nodes elapsedMs : Nat) : Option Nat :=
  if elapsedMs = 0 then none else some (nodes * 1000 / elapsedMs)

/-! ## The `Minimax` searcher (`src/src/engine/search.rs`)

The searcher is generic in the `Game`/`MoveGenerator`/evaluator interface
it calls into (those collaborators live outside the source snapshot), so
the embedding abstracts them into a `GameModel`: positions and moves are
bare naturals, `child` is the pure counterpart of `make_move`/`undo`, and
the boolean/score queries are oracles.  `Eval` (also external) is
modelled from the spec as `Int` centipawns with mate scores past a
threshold. -/

/-- The colour constant `WHITE` (`base::constants`, external). -/
def WHITE : Nat := 0

/-- The colour constant `BLACK` (`base::constants`, external). -/
def BLACK : Nat := 1

/-- Modelled from the spec: `Eval` (its module is not in the snapshot) is
"fixed-point centipawns OR mate-distance" with `mate_in(n)` dominating
any finite centipawn score.  We use `Int` with mate scores beyond
`mateCutoff`. -/
def mateCutoff : Int := 1000000

/-- Modelled from the spec: `Eval::MIN`, a score below every reachable
evaluation. -/
def evalMIN : Int := -2000000000

/-- Modelled from the spec: `Eval::MAX`, a score above every reachable
evaluation. -/
def evalMAX : Int := 2000000000

/-- Modelled from the spec: `Eval::step_back` "reduces mate distance by
one ply when propagated upward"; finite centipawn scores are
unchanged. -/
def stepBack (e : Int) : Int :=
  if e > mateCutoff then e - 1 else if e < -mateCutoff then e + 1 else e

/-- Modelled from the spec: the `Game`/`MoveGenerator`/evaluator surface
the searcher consumes (all external collaborators).  Positions and moves
are naturals; `child p m` is the position after `make_move(m)` (the
searcher always pairs `make_move` with `undo`, so a pure child function
is faithful); `isCapture p m` is
`enemy_occupancy.contains(m.to_square())`; `inCheck p` is
`is_square_attacked_by(king_square, opposite_color(player))`;
`key p` is the board used to index the transposition table.  The
searcher calls two different generators: `mgen.get_moves(g.get_board())`
at interior nodes (`pseudoMoves`) and `g.get_moves(mgen)` in quiescence
(`moves`), so the model keeps them apart. -/
structure GameModel where
  player : Nat → Nat
  moves : Nat → List Nat
  pseudoMoves : Nat → List Nat
  child : Nat → Nat → Nat
  gameOver : Nat → Bool
  isCapture : Nat → Nat → Bool
  inCheck : Nat → Bool
  staticEval : Nat → Int
  cand : Nat → Nat → Int
  key : Nat → Nat

/-- Stable insertion of `m` into a key-sorted list: `m` goes before the
first element with a strictly larger key, after equal keys. -/
def insertByKey (key : Nat → Int) (m : Nat) : List Nat → List Nat
  | [] => [m]
  | x :: xs => if key m ≤ key x then m :: x :: xs else x :: insertByKey key m xs

/-- Stable ascending sort by key. -/
def sortByKey (key : Nat → Int) : List Nat → List Nat
  | [] => []
  | x :: xs => insertByKey key x (sortByKey key xs)

/-- `moves.sort_by_cached_key(|m| -(self.candidator)(g, mgen, *m))`: a
stable ascending sort by the negated candidacy score (Rust's
`sort_by_cached_key` is stable; any stable sort by the same key computes
the same list). -/
def sortMoves (G : GameModel) (pos : Nat) (ms : List Nat) : List Nat :=
  sortByKey (fun m => -(G.cand pos m)) ms

/-- `EvalData` (`engine::transposition`, external): the transposition
entry the searcher stores and probes — a depth and a lower/upper bound
pair. -/
structure EvalData where
  depth : Int
  upperBound : Int
  lowerBound : Int

/-- The searcher's mutable state: the transposition table (a map from
board key to entry, the external `TTable` behaving as a hash map), the
node and transposition counters, and a ghost log recording the `depth`
field of every `store` call in order (instrumentation only — it lets the
depth-cutoff invariant be stated independently of any replacement
policy). -/
structure MmState where
  tt : Nat → Option EvalData
  nodes : Nat
  transpositions : Nat
  storeLog : List Int

/-- The searcher's state at the start of `Engine::evaluate` (counters
zeroed, table empty). -/
def mmInit : MmState where
  tt := fun _ => none
  nodes := 0
  transpositions := 0
  storeLog := []

/-- `self.transpose_table.store(*g.get_board(), e)`: overwrite the slot
and log the store. -/
def ttStore (st : MmState) (k : Nat) (e : EvalData) : MmState :=
  { st with
    tt := fun k2 => if k2 = k then some e else st.tt k2
    storeLog := st.storeLog ++ [e.depth] }

/-- `TRANSPOSITION_DEPTH_CUTOFF`: "After going this many edges deep into
the search tree, stop populating the transposition table to save
memory." -/
def TRANSPOSITION_DEPTH_CUTOFF : Int := 7

/-- The decision taken by the transposition probe at the top of
`Minimax::evaluate_at_depth`. -/
inductive ProbeResult
  | ret (v : Int)
  | cont (alpha beta : Int)
deriving Repr, DecidableEq

/-- Lines 68–83 of `search.rs`: probe the table when within the depth
cutoff; on a deep-enough entry return a stored bound that already decides
the window, otherwise tighten `(alpha, beta)` with the stored bounds. -/
def ttProbeStep (selfDepth depth : Int) (entry : Option EvalData)
    (alphaIn betaIn : Int) : ProbeResult :=
  if selfDepth - depth < TRANSPOSITION_DEPTH_CUTOFF then
    match entry with
    | some v =>
      if v.depth ≥ depth then
        if v.lowerBound ≥ betaIn then .ret v.lowerBound
        else if v.upperBound ≤ alphaIn then .ret v.upperBound
        else .cont (max alphaIn v.lowerBound) (min betaIn v.upperBound)
      else .cont alphaIn betaIn
    | none => .cont alphaIn betaIn
  else .cont alphaIn betaIn

/-- The capture-only move loop of `Minimax::quiesce` (lines 207–228):
`qrec` is the recursive quiescence call on a child position.  The loop
carries the mutable `alpha`, `beta` and `evaluation`, breaking on a
cutoff; both sides pass their updated window to the recursion. -/
def qloop (G : GameModel)
    (qrec : Nat → Int → Int → MmState → Option (Int × MmState))
    (pos player : Nat) :
    List Nat → Int → Int → Int → MmState → Option (Int × MmState)
  | [], _, _, evaluation, st => some (evaluation, st)
  | mov :: rest, alpha, beta, evaluation, st =>
    match qrec (G.child pos mov) alpha beta st with
    | none => none
    | some (evalForMov, st1) =>
      if player = WHITE then
        let evaluation := max evaluation evalForMov
        if evaluation ≥ beta then some (evaluation, st1)
        else qloop G qrec pos player rest (max alpha evaluation) beta evaluation st1
      else
        let evaluation := min evaluation evalForMov
        if evaluation ≤ alpha then some (evaluation, st1)
        else qloop G qrec pos player rest alpha (min beta evaluation) evaluation st1

/-- `Minimax::quiesce` (lines 170–231), fuel-indexed: `none` means the
fuel ran out, so `(∀ fuel, quiesce … = none)` says the Rust recursion
never returns.  When not in check the move list is filtered to captures;
an empty list returns the static evaluation; otherwise the sorted moves
are folded by `qloop`.  There is no stand-pat test. -/
def quiesce (G : GameModel) :
    Nat → Nat → Int → Int → MmState → Option (Int × MmState)
  | 0, _, _, _, _ => none
  | fuel + 1, pos, alphaIn, betaIn, st =>
    let st := { st with nodes := st.nodes + 1 }
    let player := G.player pos
    let currentlyInCheck := G.inCheck pos
    let moves := G.moves pos
    let moves :=
      if !currentlyInCheck then moves.filter (fun m => G.isCapture pos m)
      else moves
    if moves.length = 0 then some (G.staticEval pos, st)
    else
      let moves := sortMoves G pos moves
      let evaluation : Int := if player = WHITE then evalMIN else evalMAX
      qloop G (quiesce G fuel) pos player moves alphaIn betaIn evaluation st

/-- The alpha-beta move loop of `Minimax::evaluate_at_depth`
(lines 117–139): `rec` is the recursive search call at `depth - 1`.  The
loop mutates `alpha_changing`/`beta_changing` and `evaluation` and breaks
against the (probe-tightened) `beta`/`alpha`. -/
def mmLoop (G : GameModel)
    (rec : Int → Int → Int → Nat → MmState → Option (Int × MmState))
    (pos player : Nat) (depth alpha beta : Int) :
    List Nat → Int → Int → Int → MmState → Option (Int × MmState)
  | [], _, _, evaluation, st => some (evaluation, st)
  | m :: rest, alphaChanging, betaChanging, evaluation, st =>
    match rec (depth - 1) alphaChanging betaChanging (G.child pos m) st with
    | none => none
    | some (evalForM, st1) =>
      if player = WHITE then
        let evaluation := max evaluation evalForM
        if evaluation ≥ beta then some (evaluation, st1)
        else mmLoop G rec pos player depth alpha beta rest
          (max alphaChanging evaluation) betaChanging evaluation st1
      else
        let evaluation := min evaluation evalForM
        if evaluation ≤ alpha then some (evaluation, st1)
        else mmLoop G rec pos player depth alpha beta rest
          alphaChanging (min betaChanging evaluation) evaluation st1

/-- `Minimax::evaluate_at_depth` (lines 55–165), fuel-indexed in the
remaining depth recursion (`fuel > depth` suffices for the real control
flow) with `qfuel` feeding the quiescence calls.  `selfDepth` is the
searcher's nominal depth field `self.depth`.  At the horizon
(`depth ≤ 0` or game over) it quiesces on the *original* window and
stores the result unconditionally; the interior store and the probe are
gated by `TRANSPOSITION_DEPTH_CUTOFF`. -/
def evaluateAtDepth (G : GameModel) (selfDepth : Int) (qfuel : Nat) :
    Nat → Int → Int → Int → Nat → MmState → Option (Int × MmState)
  | 0, _, _, _, _, _ => none
  | fuel + 1, depth, alphaIn, betaIn, pos, st =>
    let st := { st with nodes := st.nodes + 1 }
    match ttProbeStep selfDepth depth (st.tt (G.key pos)) alphaIn betaIn with
    | .ret v => some (v, { st with transpositions := st.transpositions + 1 })
    | .cont alpha beta =>
      if depth ≤ 0 ∨ G.gameOver pos then
        match quiesce G qfuel pos alphaIn betaIn st with
        | none => none
        | some (eval, st1) =>
          some (eval, ttStore st1 (G.key pos)
            { depth := depth, upperBound := eval, lowerBound := eval })
      else
        let player := G.player pos
        let evaluation : Int :=
          if player = WHITE then evalMIN
          else if player = BLACK then evalMAX else 0
        let moves := G.pseudoMoves pos
        let moves := if depth > 1 then sortMoves G pos moves else moves
        match mmLoop G (evaluateAtDepth G selfDepth qfuel fuel)
            pos player depth alpha beta moves alpha beta evaluation st with
        | none => none
        | some (evaluation, st1) =>
          let evaluation := stepBack evaluation
          let upperBound := if evaluation ≤ alpha then evaluation else evalMAX
          let lowerBound := if evaluation ≥ beta then evaluation else evalMIN
          let lowerBound :=
            if alpha < evaluation ∧ evaluation < beta then evaluation
            else lowerBound
          let upperBound :=
            if alpha < evaluation ∧ evaluation < beta then evaluation
            else upperBound
          let st2 :=
            if selfDepth - depth < TRANSPOSITION_DEPTH_CUTOFF then
              ttStore st1 (G.key pos)
                { depth := depth, upperBound := upperBound,
                  lowerBound := lowerBound }
            else st1
          some (evaluation, st2)

/-- `Engine::evaluate` for `Minimax`: the root call
`evaluate_at_depth(self.depth, Eval::MIN, Eval::MAX, …)` on fresh
counters. -/
def minimaxEvaluate (G : GameModel) (selfDepth : Int) (qfuel fuel : Nat)
    (rootPos : Nat) : Option (Int × MmState) :=
  evaluateAtDepth G selfDepth qfuel fuel selfDepth evalMIN evalMAX rootPos mmInit

/-! ### Concrete game models used as inputs

Small instances of the abstract `Game`/`MoveGenerator` interface on which
the searcher's behaviour is evaluated. -/

/-- A two-position game for the quiescence stand-pat question: at
position 0 White (to move, not in check, static evaluation `100`) has a
single legal move, a capture, leading to position 1 where Black has only
the quiet move `5` (so no captures) and the static evaluation is `-200`:
the only capture available to White loses material. -/
def standPatG : GameModel where
  player := fun p => if p = 0 then WHITE else BLACK
  moves := fun p => if p = 0 then [0] else if p = 1 then [5] else []
  pseudoMoves := fun p => if p = 0 then [0] else if p = 1 then [5] else []
  child := fun _ _ => 1
  gameOver := fun _ => false
  isCapture := fun p m => p == 0 && m == 0
  inCheck := fun _ => false
  staticEval := fun p => if p = 0 then 100 else -200
  cand := fun _ _ => 0
  key := fun p => p

/-- A two-position cycle of mutual cross-checks: at each of the positions
0 and 1 the side to move is in check and has one quiet legal reply, which
leads back to the other position.  No move is a capture. -/
def crossCheckG : GameModel where
  player := fun p => if p = 0 then WHITE else BLACK
  moves := fun _ => [0]
  pseudoMoves := fun _ => [0]
  child := fun p _ => if p = 0 then 1 else 0
  gameOver := fun _ => false
  isCapture := fun _ _ => false
  inCheck := fun _ => true
  staticEval := fun _ => 0
  cand := fun _ _ => 0
  key := fun p => p

/-- A game with no moves anywhere (used as the concrete witness input for
conditional theorems). -/
def quietLeafG : GameModel where
  player := fun _ => WHITE
  moves := fun _ => []
  pseudoMoves := fun _ => []
  child := fun _ _ => 0
  gameOver := fun _ => false
  isCapture := fun _ _ => false
  inCheck := fun _ => false
  staticEval := fun _ => 0
  cand := fun _ _ => 0
  key := fun p => p

/-- A linear game, 8 plies long: position `p < 8` has the single quiet
move `0` to position `p + 1`; position 8 has no moves.  Sides
alternate.  Searching it at nominal depth 8 drives the horizon 8 plies
below the root. -/
def lineG : GameModel where
  player := fun p => if p % 2 = 0 then WHITE else BLACK
  moves := fun p => if p < 8 then [0] else []
  pseudoMoves := fun p => if p < 8 then [0] else []
  child := fun p _ => p + 1
  gameOver := fun _ => false
  isCapture := fun _ _ => false
  inCheck := fun _ => false
  staticEval := fun _ => 0
  cand := fun _ _ => 0
  key := fun p => p

/-- A three-position line for the transposition-probe question: White at
position 0 has one move to position 1, Black there has one move to the
quiet leaf 2 whose static evaluation is `77`. -/
def probeG : GameModel where
  player := fun p => if p = 0 then WHITE else BLACK
  moves := fun p => if p = 0 then [0] else if p = 1 then [0] else []
  pseudoMoves := fun p => if p = 0 then [0] else if p = 1 then [0] else []
  child := fun p _ => p + 1
  gameOver := fun _ => false
  isCapture := fun _ _ => false
  inCheck := fun _ => false
  staticEval := fun p => if p = 2 then 77 else 0
  cand := fun _ _ => 0
  key := fun p => p

/-- A searcher state whose transposition table holds, for the board of
position 0, an exact entry (`lower = upper = 10`) of depth 5. -/
def probeSeededState : MmState :=
  { mmInit with
    tt := fun k =>
      if k = 0 then some { depth := 5, upperBound := 10, lowerBound := 10 }
      else none }

/-! ### C1 — quiescence stand-pat -/

/-- C1: counterexample.  At `standPatG` position 0 with window
`(α, β) = (0, 50)` the static evaluation `100` is `≥ β`, yet `quiesce`
does not return `β = 50`: it is forced through the only (losing) capture
and returns `-200`, which is also worse for the side to move than the
static evaluation — the code has no stand-pat test at all. -/
theorem quiesce_standpat_counterexample :
    standPatG.staticEval 0 = 100 ∧ (100 : Int) ≥ 50 ∧
    (quiesce standPatG 3 0 0 50 mmInit).map Prod.fst = some (-200) ∧
    ((-200 : Int) = 50 → False) ∧ (-200 : Int) < 100 := by
  refine ⟨rfl, by decide, ?_, by decide, by decide⟩
  rfl

/-- C1 (amended): `quiesce` has no stand-pat.  When the side to move is
not in check, the move list is filtered to captures; if no capture
exists, the static evaluation is returned unchanged — the window `(α, β)`
is ignored; otherwise the result is the alpha-beta fold over the capture
moves only, which may be below both `β` and the static evaluation. -/
theorem quiesce_no_standpat (G : GameModel) (fuel pos : Nat) (α β : Int)
    (st : MmState) (hfuel : 0 < fuel)
    (hnc : G.inCheck pos = false)
    (hcap : (G.moves pos).filter (fun m => G.isCapture pos m) = []) :
    quiesce G fuel pos α β st =
      some (G.staticEval pos, { st with nodes := st.nodes + 1 }) := by
  obtain ⟨fuel, rfl⟩ : ∃ n, fuel = n + 1 :=
    ⟨fuel - 1, (Nat.succ_pred_eq_of_pos hfuel).symm⟩
  simp [quiesce, hnc, hcap]

/-- C1: witness for the amended theorem at a concrete input — Black at
`standPatG` position 1 has only a quiet move, so quiescence returns the
static evaluation `-200`. -/
theorem quiesce_no_standpat_witness :
    quiesce standPatG 1 1 0 50 mmInit =
      some (standPatG.staticEval 1, { mmInit with nodes := 1 }) :=
  quiesce_no_standpat standPatG 1 1 0 50 mmInit (by decide) (by decide) (by decide)

/-! ### C2 — transposition-table probe -/

/-- C2: counterexample.  Searching `probeG` from position 0 at remaining
depth 2 (nominal depth 3) with window `(0, 100)`, while the table holds
an exact entry `lower = upper = 10` of depth `5 ≥ 2` for that position,
does *not* return the entry: the probe only collapses the window to
`(10, 10)` and the search continues, returning the backed-up score
`77 ≠ 10`. -/
theorem tt_probe_counterexample :
    probeSeededState.tt (probeG.key 0) =
      some { depth := 5, upperBound := 10, lowerBound := 10 } ∧
    (5 : Int) ≥ 2 ∧ (0 : Int) < 10 ∧ (10 : Int) < 100 ∧
    (evaluateAtDepth probeG 3 2 4 2 0 100 0 probeSeededState).map Prod.fst =
      some 77 ∧ ((77 : Int) = 10 → False) := by
  refine ⟨rfl, by decide, by decide, by decide, ?_, by decide⟩
  rfl

/-- C2 (amended): what the probe actually does on a within-cutoff entry
whose stored depth is at least the remaining depth: a stored lower bound
`≥ β` is returned itself (a fail-soft β-cutoff, not `β`); otherwise a
stored upper bound `≤ α` is returned itself; otherwise the two stored
bounds only tighten the window to
`(max α lower, min β upper)` and the search continues — an exact entry
strictly inside the window is not returned directly, and no first move is
seeded (entries carry no move). -/
theorem tt_probe_amended (selfDepth depth : Int) (v : EvalData) (α β : Int)
    (hgate : selfDepth - depth < TRANSPOSITION_DEPTH_CUTOFF)
    (hdeep : v.depth ≥ depth) :
    (v.lowerBound ≥ β →
      ttProbeStep selfDepth depth (some v) α β = .ret v.lowerBound) ∧
    (v.lowerBound < β → v.upperBound ≤ α →
      ttProbeStep selfDepth depth (some v) α β = .ret v.upperBound) ∧
    (v.lowerBound < β → α < v.upperBound →
      ttProbeStep selfDepth depth (some v) α β =
        .cont (max α v.lowerBound) (min β v.upperBound)) := by
  have hbase : ttProbeStep selfDepth depth (some v) α β =
      if v.lowerBound ≥ β then .ret v.lowerBound
      else if v.upperBound ≤ α then .ret v.upperBound
      else .cont (max α v.lowerBound) (min β v.upperBound) := by
    unfold ttProbeStep
    rw [if_pos hgate]
    dsimp only
    rw [if_pos hdeep]
  refine ⟨fun h1 => ?_, fun h1 h2 => ?_, fun h1 h2 => ?_⟩ <;> rw [hbase]
  · rw [if_pos h1]
  · rw [if_neg (by omega), if_pos h2]
  · rw [if_neg (by omega), if_neg (by omega)]

/-- C2: witness for the amended theorem — an entry with
`lower = upper = 10` and depth 5, probed at remaining depth 2 with
`β = 5 ≤ 10`, returns the stored lower bound `10`. -/
theorem tt_probe_amended_witness :
    ttProbeStep 3 2 (some { depth := 5, upperBound := 10, lowerBound := 10 })
      0 5 = .ret 10 :=
  (tt_probe_amended 3 2 { depth := 5, upperBound := 10, lowerBound := 10 }
    0 5 (by decide) (by decide)).1 (by decide)

/-! ### C3 — the transposition depth cutoff -/

/-- C3: the depth cutoff is violated by the horizon store.  Searching
`lineG` at nominal depth 8 stores entries with remaining depths
`[0, 2, 3, 4, 5, 6, 7, 8]` (in completion order): the unconditional store
after quiescence writes the horizon node's entry at remaining depth 0,
i.e. `8 - 0 = 8 > TRANSPOSITION_DEPTH_CUTOFF = 7` plies below the root,
contradicting the cutoff's own documentation; only the interior store is
gated (which is why remaining depth 1, at 7 plies, is absent). -/
theorem tt_store_beyond_cutoff :
    (minimaxEvaluate lineG 8 2 20 0).map (fun r => r.2.storeLog) =
      some [0, 2, 3, 4, 5, 6, 7, 8] ∧
    (8 : Int) - 0 > TRANSPOSITION_DEPTH_CUTOFF := by
  exact ⟨rfl, by decide⟩

/-! ### C9 — quiescence termination -/

/-- The quiescence recursion from `pos` never returns, whatever the
window, the searcher state, or the amount of fuel. -/
def quiesceDiverges (G : GameModel) (pos : Nat) : Prop :=
  ∀ fuel (α β : Int) (st : MmState), quiesce G fuel pos α β st = none

/-- On the mutual cross-check cycle, quiescence from either position
exhausts any amount of fuel. -/
theorem crossCheck_never_returns :
    ∀ fuel (α β : Int) (st : MmState),
      quiesce crossCheckG fuel 0 α β st = none ∧
      quiesce crossCheckG fuel 1 α β st = none := by
  intro fuel
  induction fuel with
  | zero => exact fun α β st => ⟨rfl, rfl⟩
  | succ n ih =>
    intro α β st
    have ih0 : ∀ (a b : Int) (s : MmState), quiesce crossCheckG n 0 a b s = none :=
      fun a b s => (ih a b s).1
    have ih1 : ∀ (a b : Int) (s : MmState), quiesce crossCheckG n 1 a b s = none :=
      fun a b s => (ih a b s).2
    have echk0 : crossCheckG.inCheck 0 = true := rfl
    have echk1 : crossCheckG.inCheck 1 = true := rfl
    have emov0 : crossCheckG.moves 0 = [0] := rfl
    have emov1 : crossCheckG.moves 1 = [0] := rfl
    have echild0 : crossCheckG.child 0 0 = 1 := rfl
    have echild1 : crossCheckG.child 1 0 = 0 := rfl
    constructor
    · simp only [quiesce, echk0, emov0, Bool.not_true, Bool.false_eq_true,
        if_false, List.length_cons, List.length_nil, sortMoves, sortByKey,
        insertByKey, qloop, echild0, ih1]
      simp
    · simp only [quiesce, echk1, emov1, Bool.not_true, Bool.false_eq_true,
        if_false, List.length_cons, List.length_nil, sortMoves, sortByKey,
        insertByKey, qloop, echild1, ih0]
      simp

/-- C9: counterexample.  The claim's termination argument fails on the
code: when the side to move is in check, `quiesce` searches *all* legal
replies, not only captures, so consecutive check-evasion plies need not
alternate with captures; on the capture-free mutual cross-check cycle
`crossCheckG` the recursion from position 0 never returns. -/
theorem quiesce_termination_counterexample : quiesceDiverges crossCheckG 0 :=
  fun fuel α β st => (crossCheck_never_returns fuel α β st).1

/-- Membership is preserved by stable insertion. -/
theorem mem_insertByKey (key : Nat → Int) (m a : Nat) :
    ∀ l : List Nat, a ∈ insertByKey key m l ↔ a = m ∨ a ∈ l := by
  intro l
  induction l with
  | nil => simp [insertByKey]
  | cons x xs ih =>
    simp only [insertByKey]
    split
    · simp
    · simp [ih]
      tauto

/-- Membership is preserved by the stable sort. -/
theorem mem_sortByKey (key : Nat → Int) (a : Nat) :
    ∀ l : List Nat, a ∈ sortByKey key l ↔ a ∈ l := by
  intro l
  induction l with
  | nil => simp [sortByKey]
  | cons x xs ih => simp [sortByKey, mem_insertByKey, ih]

/-- The quiescence move loop returns a value whenever every recursive
call it can make does. -/
theorem qloop_isSome (G : GameModel)
    (qrec : Nat → Int → Int → MmState → Option (Int × MmState))
    (pos player : Nat) :
    ∀ (ms : List Nat) (α β ev : Int) (st : MmState),
      (∀ m ∈ ms, ∀ (a b : Int) (s : MmState),
        (qrec (G.child pos m) a b s).isSome) →
      (qloop G qrec pos player ms α β ev st).isSome := by
  intro ms
  induction ms with
  | nil => intro α β ev st _; simp [qloop]
  | cons m rest ih =>
    intro α β ev st h
    have hm := h m (List.mem_cons_self m rest) α β st
    have hrest := fun m2 hm2 => h m2 (List.mem_cons_of_mem m hm2)
    simp only [qloop]
    rcases hsome : qrec (G.child pos m) α β st with _ | ⟨evalForMov, st1⟩
    · rw [hsome] at hm; simp at hm
    · dsimp only
      split
      · split
        · simp
        · exact ih _ _ _ _ hrest
      · split
        · simp
        · exact ih _ _ _ _ hrest

/-- C9 (amended): the claimed material argument does guarantee
termination on the capture-only fragment: if the side to move is never in
check (so only captures are ever expanded) and every capture strictly
decreases a material measure `μ`, then `quiesce` returns once the fuel
exceeds `μ`; the in-check branch, which re-searches all legal moves, is
exactly what the argument does not cover. -/
theorem quiesce_terminates_on_captures (G : GameModel) (μ : Nat → Nat)
    (hnc : ∀ p, G.inCheck p = false)
    (hdec : ∀ p m, m ∈ (G.moves p).filter (fun m2 => G.isCapture p m2) →
      μ (G.child p m) < μ p) :
    ∀ (fuel pos : Nat), μ pos < fuel → ∀ (α β : Int) (st : MmState),
      (quiesce G fuel pos α β st).isSome := by
  intro fuel
  induction fuel with
  | zero => intro pos h; omega
  | succ n ih =>
    intro pos hμ α β st
    simp only [quiesce, hnc pos, Bool.not_false, if_true]
    by_cases hlen :
      ((G.moves pos).filter (fun m => G.isCapture pos m)).length = 0
    · rw [if_pos hlen]; simp
    · rw [if_neg hlen]
      apply qloop_isSome
      intro m hm a b s
      have hmem : m ∈ (G.moves pos).filter (fun m2 => G.isCapture pos m2) := by
        simpa [sortMoves, mem_sortByKey] using hm
      have : μ (G.child pos m) < μ pos := hdec pos m hmem
      exact ih (G.child pos m) (by omega) a b s

/-- C9: witness for the amended theorem — on the quiet leaf game (no
checks, no captures, measure constantly 0) quiescence returns with one
unit of fuel. -/
theorem quiesce_terminates_on_captures_witness :
    (quiesce quietLeafG 1 0 0 100 mmInit).isSome :=
  quiesce_terminates_on_captures quietLeafG (fun _ => 0)
    (fun _ => rfl) (fun p m h => absurd h (by simp [quietLeafG]))
    1 0 (by decide) 0 100 mmInit

/-! ## The iterative-deepening driver (`src/engine/src/thread.rs`)

`MainSearch::evaluate` runs depths `1..=config.depth`; per depth it joins
the helper handles with `handle.join().map_err(|_| SearchError::Join)?` —
the `?` returns from the whole function — then, on a successful local
result, publishes an info line whose `NodeSpeed` field divides by the
elapsed milliseconds.  The embedding abstracts one depth iteration into a
`DepthRun` record carrying the local thread's result, the join outcomes
of the helpers (in join order, `none` for a panicked thread), and the
truncated milliseconds elapsed since the search began when the info line
is printed.  A panic (of the info line's division) is modelled by the
driver returning `none`. -/

/-- The search-error kinds the driver distinguishes (`SearchError`,
external module): a timeout and a worker-join failure. -/
inductive SearchError where
  | timeout
  | join
deriving Repr, DecidableEq

/-- The fields of `SearchInfo` the driver reads: the evaluation, the
achieved depth, and the node count. -/
structure TInfo where
  eval : Int
  depth : Nat
  nodes : Nat
deriving Repr, DecidableEq

/-- `SearchResult = Result<SearchInfo, SearchError>`. -/
inductive SResult where
  | ok (info : TInfo)
  | err (e : SearchError)
deriving Repr, DecidableEq

/-- Modelled from the spec: `SearchInfo::unify_with` (its module is not
in the snapshot) — "if multiple succeeded, unify by choosing the one with
the greater effective depth, merging node counts". -/
def TInfo.unifyWith (a b : TInfo) : TInfo :=
  if b.depth > a.depth then { b with nodes := a.nodes + b.nodes }
  else { a with nodes := a.nodes + b.nodes }

/-- Modelled from the spec: `Eval::in_perspective(side)` "flips sign so
positive = side-to-move-better". -/
def inPerspective (e : Int) (player : Nat) : Int :=
  if player = WHITE then e else -e

/-- One iteration of the driver's depth loop, as data: the calling
thread's own result, the helper join outcomes in join order (`none` means
the helper thread panicked), and the value of
`(Instant::now() - tic).as_millis()` at info-line time. -/
structure DepthRun where
  sub : SResult
  helpers : List (Option SResult)
  elapsedMs : Nat

/-- The helper-join fold of `MainSearch::evaluate` (lines 76–89): a
panicked join makes the whole function return `Err(SearchError::Join)`
via `?` (modelled by `none` here); otherwise a first success replaces a
failed local result and two successes are unified. -/
def joinHelpers (sub : SResult) : List (Option SResult) → Option SResult
  | [] => some sub
  | none :: _ => none
  | some r :: rest =>
    match sub, r with
    | .err _, .ok _ => joinHelpers r rest
    | .ok a, .ok b => joinHelpers (.ok (a.unifyWith b)) rest
    | _, _ => joinHelpers sub rest

/-- The depth loop of `MainSearch::evaluate` (lines 53–117): on a
successful depth the result becomes the new best (the code then unifies
it with itself) and the info line is printed — computing the `NodeSpeed`
field, which panics on zero elapsed milliseconds (`none`).  A helper join
failure aborts the whole evaluation with `Err(SearchError::Join)`. -/
def mainLoop : List DepthRun → SResult → Option SResult
  | [], best => some best
  | run :: rest, best =>
    match joinHelpers run.sub run.helpers with
    | none => some (SResult.err SearchError.join)
    | some sub =>
      match sub with
      | .ok info =>
        let bestInfo := info.unifyWith info
        match nodeSpeed bestInfo.nodes run.elapsedMs with
        | none => none
        | some _ => mainLoop rest (.ok bestInfo)
      | .err _ => mainLoop rest best

/-- `MainSearch::evaluate`: run the depth loop starting from
`Err(SearchError::Timeout)` and convert a final successful evaluation
into the mover's perspective.  `none` models a panic. -/
def mainEvaluate (player : Nat) (runs : List DepthRun) : Option SResult :=
  match mainLoop runs (SResult.err SearchError.timeout) with
  | none => none
  | some (.ok info) =>
      some (.ok { info with eval := inPerspective info.eval player })
  | some e => some e

/-- The completed depth-1 result used in the driver scenarios. -/
def okInfo1 : TInfo := { eval := 5, depth := 1, nodes := 100 }

/-- A driver run in which depth 1 completes (no helpers, 3 ms on the
clock) and then one helper of depth 2 panics. -/
def joinRuns : List DepthRun :=
  [ { sub := .ok okInfo1, helpers := [], elapsedMs := 3 },
    { sub := .ok { eval := 7, depth := 2, nodes := 200 },
      helpers := [none], elapsedMs := 9 } ]

/-! ### C4 — join failures and the best completed result -/

/-- C4: counterexample.  In `joinRuns` depth 1 completed successfully,
yet when a depth-2 helper panics the driver surfaces
`Err(SearchError::Join)` instead of the best completed result: the `?`
on `handle.join()` aborts the whole evaluation. -/
theorem join_failure_counterexample :
    joinRuns.head?.map DepthRun.sub = some (SResult.ok okInfo1) ∧
    mainEvaluate WHITE joinRuns = some (SResult.err SearchError.join) ∧
    (∀ info : TInfo,
      SResult.err SearchError.join = SResult.ok info → False) := by
  refine ⟨rfl, rfl, ?_⟩
  intro info h
  exact SResult.noConfusion h

/-- Joining a list of handles that contains a panicked one always aborts
(the fold reaches the panicked handle and `?` fires). -/
theorem joinHelpers_of_mem_none (sub : SResult)
    (helpers : List (Option SResult)) (h : none ∈ helpers) :
    joinHelpers sub helpers = none := by
  induction helpers generalizing sub with
  | nil => cases h
  | cons hd tl ih =>
    cases hd with
    | none => rfl
    | some r =>
      have htl : none ∈ tl := by
        rcases List.mem_cons.mp h with h1 | h1
        · exact absurd h1 (by simp)
        · exact h1
      cases sub with
      | ok a => cases r with
        | ok b => exact ih _ htl
        | err e => exact ih _ htl
      | err e => cases r with
        | ok b => exact ih _ htl
        | err e2 => exact ih _ htl

/-- Joining a list with no panicked handle returns a result. -/
theorem joinHelpers_isSome (sub : SResult) (helpers : List (Option SResult))
    (h : none ∉ helpers) : (joinHelpers sub helpers).isSome := by
  induction helpers generalizing sub with
  | nil => rfl
  | cons hd tl ih =>
    cases hd with
    | none => exact absurd (List.mem_cons_self _ _) h
    | some r =>
      have htl : none ∉ tl := fun hmem => h (List.mem_cons_of_mem _ hmem)
      cases sub with
      | ok a => cases r with
        | ok b => exact ih _ htl
        | err e => exact ih _ htl
      | err e => cases r with
        | ok b => exact ih _ htl
        | err e2 => exact ih _ htl

/-- C4 (amended): a worker join failure is fatal, not recovered: whenever
any depth's helper list contains a panicked thread (and no info line
divides by zero first), `MainSearch::evaluate` returns
`Err(SearchError::Join)`, discarding the best completed result of the
earlier depths; only non-join worker errors (such as `Timeout`) fall
back to the previous depth's result. -/
theorem join_failure_fatal (player : Nat) (runs : List DepthRun)
    (hpanic : ∃ run ∈ runs, none ∈ run.helpers)
    (hms : ∀ run ∈ runs, run.elapsedMs ≠ 0) :
    mainEvaluate player runs = some (SResult.err SearchError.join) := by
  have main : ∀ (rs : List DepthRun) (best : SResult),
      (∃ run ∈ rs, none ∈ run.helpers) →
      (∀ run ∈ rs, run.elapsedMs ≠ 0) →
      mainLoop rs best = some (SResult.err SearchError.join) := by
    intro rs
    induction rs with
    | nil => intro best h; rcases h with ⟨run, hmem, _⟩; cases hmem
    | cons run rest ih =>
      intro best hpanic2 hms2
      by_cases hrun : none ∈ run.helpers
      · simp only [mainLoop, joinHelpers_of_mem_none run.sub run.helpers hrun]
      · have hrest : ∃ r ∈ rest, none ∈ r.helpers := by
          rcases hpanic2 with ⟨r, hmem, hr⟩
          rcases List.mem_cons.mp hmem with h1 | h1
          · exact absurd (h1 ▸ hr) hrun
          · exact ⟨r, h1, hr⟩
        have hmsrest := fun r hmem => hms2 r (List.mem_cons_of_mem _ hmem)
        have hs := joinHelpers_isSome run.sub run.helpers hrun
        rcases hj : joinHelpers run.sub run.helpers with _ | sub
        · rw [hj] at hs; simp at hs
        · simp only [mainLoop, hj]
          cases sub with
          | ok info =>
            have hms0 := hms2 run (List.mem_cons_self _ _)
            simp only [nodeSpeed, if_neg hms0]
            exact ih _ hrest hmsrest
          | err e => exact ih _ hrest hmsrest
  rw [mainEvaluate, main runs _ hpanic hms]

/-- C4: witness for the amended theorem at the concrete `joinRuns`
scenario. -/
theorem join_failure_fatal_witness :
    mainEvaluate WHITE joinRuns = some (SResult.err SearchError.join) :=
  join_failure_fatal WHITE joinRuns (by decide) (by decide)

/-! ### C10 — the nodes-per-second division -/

/-- C10: whenever a depth completes successfully while the elapsed wall
clock truncates to 0 ms, the info-line computation divides the node count
by zero and the driver panics instead of emitting the info line (and a
result); with at least one elapsed millisecond the figure is the
well-defined `nodes * 1000 / ms`. -/
theorem info_line_divides_by_zero (player : Nat) (run : DepthRun)
    (rest : List DepthRun) (info : TInfo)
    (hsub : joinHelpers run.sub run.helpers = some (SResult.ok info))
    (hms : run.elapsedMs = 0) :
    mainEvaluate player (run :: rest) = none ∧
    nodeSpeed (info.unifyWith info).nodes run.elapsedMs = none ∧
    (∀ nodes ms : Nat, ms ≠ 0 → nodeSpeed nodes ms = some (nodes * 1000 / ms)) := by
  refine ⟨?_, by simp [nodeSpeed, hms], fun nodes ms h => by simp [nodeSpeed, h]⟩
  simp [mainEvaluate, mainLoop, hsub, nodeSpeed, hms]

/-- C10: witness — a depth that completes with 100 nodes on a 0 ms clock
panics the driver. -/
theorem info_line_divides_by_zero_witness :
    mainEvaluate WHITE [⟨.ok okInfo1, [], 0⟩] = none ∧
    nodeSpeed (okInfo1.unifyWith okInfo1).nodes 0 = none ∧
    (∀ nodes ms : Nat, ms ≠ 0 → nodeSpeed nodes ms = some (nodes * 1000 / ms)) :=
  info_line_divides_by_zero WHITE ⟨.ok okInfo1, [], 0⟩ [] okInfo1 rfl rfl

/-! ## UCI move parsing (`Move::from_uci`, `src/base/src/moves.rs`)

`from_uci` parses the square names, optionally a promotion letter, and
infers the castle / en-passant tags from the board: castle iff the king
bitboard contains the from-square and the Chebyshev distance exceeds 1;
en passant iff the pawn bitboard contains the from-square and the board's
en-passant square is the to-square.  It never consults the castling
rights.  `Square`, `Piece::from_code` and `Board` are external, modelled
from the spec below. -/

/-- Modelled from the spec: `Square::from_algebraic` — two characters,
file `a..h` then rank `1..8`, `square = rank * 8 + file`. -/
def squareFromAlgebraic : List Char → Except String Nat
  | [f, r] =>
    if 'a' ≤ f ∧ f ≤ 'h' ∧ '1' ≤ r ∧ r ≤ '8' then
      Except.ok (8 * (r.toNat - '1'.toNat) + (f.toNat - 'a'.toNat))
    else Except.error "unparseable square"
  | _ => Except.error "unparseable square"

/-- Modelled from the spec: `Square::chebyshev_to`, the king-move
distance between two squares. -/
def chebyshevTo (a b : Nat) : Nat :=
  max ((a / 8 : Int) - (b / 8 : Int)).natAbs ((a % 8 : Int) - (b % 8 : Int)).natAbs

/-- Modelled from the spec: `Piece::from_code` on the upper-cased
promotion letter — the spec admits exactly the non-king non-pawn pieces
N, B, R, Q (piece order N, B, R, Q, P, K as in the tuner's weight
layout). -/
def pieceFromCode (c : Char) : Option Nat :=
  if c = 'N' then some 0
  else if c = 'B' then some 1
  else if c = 'R' then some 2
  else if c = 'Q' then some 3
  else none

/-- The board fields `Move::from_uci` consults: the king and pawn
bitboards (as square lists) and the en-passant target.  The castling
rights are not among them — `from_uci` has no way to see them. -/
structure BoardU where
  kings : List Nat
  pawns : List Nat
  enPassantSquare : Option Nat

/-- `Move::from_uci` (lines 163–193): length check, square parsing,
promotion-letter parsing for 5-character input, then the castle /
en-passant inference from the board.  The inner `Option` is the
`Move::new` panic. -/
def fromUci (s : String) (board : BoardU) : Except String (Option Nat) :=
  let cs := s.toList
  if ¬(cs.length = 4 ∨ cs.length = 5) then
    Except.error "string was neither a normal move or a promotion"
  else
    match squareFromAlgebraic (cs.take 2) with
    | .error e => .error e
    | .ok fromSq =>
      match squareFromAlgebraic ((cs.drop 2).take 2) with
      | .error e => .error e
      | .ok toSq =>
        let promoteRes : Except String (Option Nat) :=
          if cs.length = 5 then
            match cs.drop 4 with
            | [c] =>
              match pieceFromCode c.toUpper with
              | none => .error "invalid promote type given"
              | some p => .ok (some p)
            | _ => .error "invalid promote type given"
          else .ok none
        match promoteRes with
        | .error e => .error e
        | .ok promoteType =>
          let isCastle :=
            board.kings.contains fromSq && chebyshevTo fromSq toSq > 1
          let isEnPassant :=
            board.pawns.contains fromSq && board.enPassantSquare == some toSq
          .ok (Move.new fromSq toSq promoteType isCastle isEnPassant)

/-- A board where White has no castling rights — `from_uci` cannot even
see rights, so the model provides none — but the king stands on e1
(square 4): the position of the claim. -/
def kingOnE1Board : BoardU where
  kings := [4]
  pawns := []
  enPassantSquare := none

/-! ### C6 — `from_uci("e1c1")` without castling rights -/

/-- C6: counterexample.  On a board whose king stands on e1, castling
rights or not, `from_uci("e1c1")` returns a move *tagged castle*
(`e1 → c1` covers Chebyshev distance 2 and the king bitboard contains
e1), not the normal move the claim expects: the rights never enter the
inference. -/
theorem from_uci_e1c1_counterexample :
    fromUci "e1c1" kingOnE1Board = Except.ok (Move.new 4 2 none true false) ∧
    (Move.new 4 2 none true false).map Move.isCastle = some true ∧
    Move.new 4 2 none true false ≠ Move.normal 4 2 := by
  refine ⟨rfl, rfl, by decide⟩

/-- C6 (amended): `from_uci("e1c1", board)` is tagged castle exactly when
the king bitboard contains e1 — castling rights play no part.  With a
king on e1 (and no pawn there) the parsed move carries the castle flag;
only without a king on e1 (as in the repository's own
`test_uci_not_castle`, where the king is on g1) is the move normal. -/
theorem from_uci_e1c1 (board : BoardU) (hpawn : 4 ∉ board.pawns) :
    (4 ∈ board.kings →
      fromUci "e1c1" board = Except.ok (Move.new 4 2 none true false)) ∧
    (4 ∉ board.kings →
      fromUci "e1c1" board = Except.ok (Move.new 4 2 none false false)) := by
  constructor <;> intro hking <;>
    simp [fromUci, squareFromAlgebraic, chebyshevTo, hking, hpawn]

/-- C6: witness for the amended theorem on the concrete king-on-e1
board. -/
theorem from_uci_e1c1_witness :
    fromUci "e1c1" kingOnE1Board = Except.ok (Move.new 4 2 none true false) :=
  (from_uci_e1c1 kingOnE1Board (by simp [kingOnE1Board])).1
    (by simp [kingOnE1Board])

/-! ## The tuner's feature extraction (`src/tuner/src/main.rs`)

The claim concerns where `extract` places features.  The game phase and
feature values are `f32` in Rust; the embedding carries them as exact
rationals — the control flow (which indices are pushed) only ever tests
integers, so the number representation does not affect the emitted
indices.  The attack-set sizes come from external magic-bitboard tables
and are oracles of the board model. -/

/-- `MAX_MOBILITY` (external `engine::evaluate::mobility` constant),
pinned by the §4.2 layout: `(1114 - 778) / (6 pieces × 2 phases) = 28`
buckets. -/
def MAX_MOBILITY : Nat := 28

/-- The material section of `extract` (lines 332–342): for each piece of
`Piece::NON_KING` (N, B, R, Q, P = 0..5) with a nonzero net count, push
the phase-blended pair — the code pushes *both* components at
`idx = 2 * pt`. -/
def extractMaterial (phase : ℚ) (netCount : Nat → Int) : List (Nat × ℚ) :=
  ((List.range 5).map fun pt =>
    let net := netCount pt
    if net ≠ 0 then
      let idx := 2 * pt
      [(idx, phase * (net : ℚ)), (idx, (1 - phase) * (net : ℚ))]
    else []).flatten

/-- The board data `extract_mobility` reads: per piece kind the white and
black square lists, the king squares, and for each square and colour the
attacked-square count `(ATTACKS & !own_occupancy).len()` delivered by the
external move tables. -/
structure MobilityBoard where
  knights : List Nat × List Nat
  bishops : List Nat × List Nat
  rooks : List Nat × List Nat
  queens : List Nat × List Nat
  pawns : List Nat × List Nat
  kingSq : Bool → Nat
  knightMob : Nat → Bool → Nat
  bishopMob : Nat → Bool → Nat
  rookMob : Nat → Bool → Nat
  queenMob : Nat → Bool → Nat
  pawnMob : Nat → Bool → Nat
  kingMob : Nat → Bool → Nat

/-- `count[pt][idx] += d` on the mobility count matrix. -/
def bump (count : Nat → Nat → Int) (pt idx : Nat) (d : Int) :
    Nat → Nat → Int :=
  fun p i => if p = pt ∧ i = idx then count p i + d else count p i

/-- One `for sq in pieces { count[pt][mob sq] += d }` loop of
`extract_mobility`. -/
def countFold (count : Nat → Nat → Int) (pt : Nat) (sqs : List Nat)
    (mob : Nat → Nat) (d : Int) : Nat → Nat → Int :=
  sqs.foldl (fun c sq => bump c pt (mob sq) d) count

/-- `extract_mobility` (lines 392–479).  White pieces increment and black
pieces decrement the bucket of their attacked-square count — except that
the black-queen loop iterates over `rooks & black` (line 442), exactly as
in the source.  The final double loop pushes each nonzero bucket at
`offset + 2 * (MAX_MOBILITY * pt + idx)` and its successor. -/
def extractMobility (b : MobilityBoard) (offset : Nat) (phase : ℚ) :
    List (Nat × ℚ) :=
  let count : Nat → Nat → Int := fun _ _ => 0
  let count := countFold count 0 b.knights.1 (fun sq => b.knightMob sq true) 1
  let count := countFold count 0 b.knights.2 (fun sq => b.knightMob sq false) (-1)
  let count := countFold count 1 b.bishops.1 (fun sq => b.bishopMob sq true) 1
  let count := countFold count 1 b.bishops.2 (fun sq => b.bishopMob sq false) (-1)
  let count := countFold count 2 b.rooks.1 (fun sq => b.rookMob sq true) 1
  let count := countFold count 2 b.rooks.2 (fun sq => b.rookMob sq false) (-1)
  let count := countFold count 3 b.queens.1 (fun sq => b.queenMob sq true) 1
  let count := countFold count 3 b.rooks.2 (fun sq => b.queenMob sq false) (-1)
  let count := countFold count 4 b.pawns.1 (fun sq => b.pawnMob sq true) 1
  let count := countFold count 4 b.pawns.2 (fun sq => b.pawnMob sq false) (-1)
  let count := bump count 5 (b.kingMob (b.kingSq true) true) 1
  let count := bump count 5 (b.kingMob (b.kingSq false) false) (-1)
  ((List.range 6).map fun pt =>
    ((List.range MAX_MOBILITY).map fun idx =>
      let numMobile := count pt idx
      if numMobile ≠ 0 then
        [(offset + 2 * (MAX_MOBILITY * pt + idx), phase * (numMobile : ℚ)),
         (offset + 2 * (MAX_MOBILITY * pt + idx) + 1,
           (1 - phase) * (numMobile : ℚ))]
      else []).flatten).flatten

/-- A material imbalance of exactly one extra white knight. -/
def knightUpNet : Nat → Int := fun pt => if pt = 0 then 1 else 0

/-- A board whose only mobile piece (besides the two kings, which always
contribute) is a black queen on square 10 attacking 5 squares; there are
no black rooks. -/
def blackQueenBoard : MobilityBoard where
  knights := ([], [])
  bishops := ([], [])
  rooks := ([], [])
  queens := ([], [10])
  pawns := ([], [])
  kingSq := fun w => if w then 0 else 63
  knightMob := fun _ _ => 0
  bishopMob := fun _ _ => 0
  rookMob := fun _ _ => 0
  queenMob := fun sq w => if sq = 10 ∧ w = false then 5 else 0
  pawnMob := fun _ _ => 0
  kingMob := fun _ w => if w then 3 else 4

/-! ### C7 — the tuner's feature indices -/

/-- C7: evaluating `extract` at the failing inputs.  (a) One extra white
knight emits *both* phase components at index `0 = 2 * pt` — the endgame
component lands on the midgame index, index 1 is never written.  (b) With
a black queen on the board but no black rooks, the black-queen mobility
loop (which iterates over `rooks & black`) contributes nothing: the only
features are the two kings' buckets (indices 1064–1067), and the claimed
queen-mobility feature at index `956 = 778 + 2 * (28 * 3 + 5)` (bucket 5
of the queen's own attack count) is absent. -/
theorem tuner_extract_misindexed (phase : ℚ) :
    (extractMaterial phase knightUpNet).map Prod.fst = [0, 0] ∧
    1 ∉ (extractMaterial phase knightUpNet).map Prod.fst ∧
    (extractMobility blackQueenBoard 778 phase).map Prod.fst =
      [1064, 1065, 1066, 1067] ∧
    956 ∉ (extractMobility blackQueenBoard 778 phase).map Prod.fst := by
  have h1 : (extractMaterial phase knightUpNet).map Prod.fst = [0, 0] := rfl
  have h2 : (extractMobility blackQueenBoard 778 phase).map Prod.fst =
      [1064, 1065, 1066, 1067] := rfl
  refine ⟨h1, ?_, h2, ?_⟩
  · rw [h1]; decide
  · rw [h2]; decide

/-! ### C5 — the packed move layout -/

/-- C5: counterexample.  The move from square 0 to square 1 packs to the
raw word 64: its low six bits hold `0` (the *from*-square), not the
to-square `1` the claim places there, and the accessors read the
to-square from bits 6..12 and the from-square from the low bits — the
reverse of the claim. -/
theorem move_packing_counterexample :
    Move.normal 0 1 = some 64 ∧
    (64 : Nat) &&& 63 = 0 ∧ ((0 : Nat) = 1 → False) ∧
    Move.toSquare 64 = 1 ∧ Move.fromSquare 64 = 0 := by decide

set_option maxHeartbeats 1600000 in
/-- C5 (amended): the layout is the reverse of the claim on the two
square fields: for all squares `f`, `t` and promotion piece `p`, the
packed word is `f + 64 * t (+ 4096 * p + promote flag)` — the
*from*-square occupies bits 0..6, the *to*-square bits 6..12, the
promotion piece bits 12..14 and the flags bits 14..16 — and the accessors
read the fields back from exactly those positions. -/
theorem move_layout_amended : ∀ f t : Fin 64,
    Move.normal f.val t.val = some (f.val + 64 * t.val) ∧
    Move.fromSquare (f.val + 64 * t.val) = f.val ∧
    Move.toSquare (f.val + 64 * t.val) = t.val ∧
    Move.isPromotion (f.val + 64 * t.val) = false ∧
    Move.isCastle (f.val + 64 * t.val) = false ∧
    Move.isEnPassant (f.val + 64 * t.val) = false ∧
    Move.castling f.val t.val = some (f.val + 64 * t.val + 32768) ∧
    Move.isCastle (f.val + 64 * t.val + 32768) = true ∧
    Move.enPassantMove f.val t.val = some (f.val + 64 * t.val + 49152) ∧
    Move.isEnPassant (f.val + 64 * t.val + 49152) = true ∧
    ∀ p : Fin 4,
      Move.promoting f.val t.val p.val =
        some (f.val + 64 * t.val + 4096 * p.val + 16384) ∧
      Move.isPromotion (f.val + 64 * t.val + 4096 * p.val + 16384) = true ∧
      Move.promoteType (f.val + 64 * t.val + 4096 * p.val + 16384) =
        some p.val := by decide

/-! ### C8 — the tuner's dataset chunking -/

/-- C8: counterexample.  On a dataset of 5 samples with 2 threads,
`chunk_size = 5 / 2 = 2` and the two chunks cover only the first four
samples: sample 4 is dropped from the epoch, so the chunks do not
partition the dataset. -/
theorem train_chunking_counterexample :
    processedSamples [0, 1, 2, 3, 4] 2 = [0, 1, 2, 3] ∧
    (4 : Nat) ∈ [0, 1, 2, 3, 4] ∧
    (4 : Nat) ∉ processedSamples [0, 1, 2, 3, 4] 2 := by decide

/-- C8 (amended): one `train_step` visits exactly the first
`(n / K) * K` samples of an `n`-sample dataset split over `K` threads,
in order: the `n mod K` trailing samples are dropped (all samples when
`n < K`), and each visited sample is visited once. -/
theorem train_chunking_amended {α : Type} (inputs : List α) (nthreads : Nat) :
    processedSamples inputs nthreads =
      inputs.take (inputs.length / nthreads * nthreads) := by
  unfold processedSamples chunkOf
  exact join_chunks_eq_take (inputs.length / nthreads) inputs nthreads

end RotTomato

